import Mathlib

/-!
Shallow embedding of the connection-establishment layer of a PostgreSQL
wire-protocol client (package base, file conn.go).

Modelling conventions:
  - Go machine integers carry no arithmetic here, so uint32, uint16 and byte
    values are Nat; the MD5 core works on Nat with explicit reduction mod 2^32.
  - Go map[string]string is an association list with first-match lookup and
    in-place upsert (mapGet / mapSet); Go map reads of absent keys give "".
  - Results of operating-system and network calls (os.Stat, user.Current,
    Dial, stream writes, codec receives) are drawn from an explicit oracle
    record Env, one field per call site; the handshake loop consumes the
    list Env.receives one element per Frontend.Receive call.
  - Fallible Go functions returning (T, error) become Except / Option values;
    frames handed to the stream are accumulated in an explicit trace.
-/

/-! ## Association-list model of Go map[string]string -/

def mapGet (m : List (String × String)) (k : String) : Option String :=
  match m with
  | [] => none
  | p :: rest => if p.1 = k then some p.2 else mapGet rest k

def mapSet (m : List (String × String)) (k v : String) : List (String × String) :=
  match m with
  | [] => [(k, v)]
  | p :: rest => if p.1 = k then (k, v) :: rest else p :: mapSet rest k v

/-! ## Bytes of a Go string (UTF-8) -/

def charBytes (c : Char) : List Nat :=
  let n := c.toNat
  if n < 128 then [n]
  else if n < 2048 then [192 ||| (n >>> 6), 128 ||| (n &&& 63)]
  else if n < 65536 then
    [224 ||| (n >>> 12), 128 ||| ((n >>> 6) &&& 63), 128 ||| (n &&& 63)]
  else
    [240 ||| (n >>> 18), 128 ||| ((n >>> 12) &&& 63),
     128 ||| ((n >>> 6) &&& 63), 128 ||| (n &&& 63)]

def utf8Bytes (s : String) : List Nat :=
  s.data.flatMap charBytes

/-! ## MD5 (crypto/md5), on lists of byte values -/

def md5K : List Nat :=
  [0xd76aa478, 0xe8c7b756, 0x242070db, 0xc1bdceee,
   0xf57c0faf, 0x4787c62a, 0xa8304613, 0xfd469501,
   0x698098d8, 0x8b44f7af, 0xffff5bb1, 0x895cd7be,
   0x6b901122, 0xfd987193, 0xa679438e, 0x49b40821,
   0xf61e2562, 0xc040b340, 0x265e5a51, 0xe9b6c7aa,
   0xd62f105d, 0x02441453, 0xd8a1e681, 0xe7d3fbc8,
   0x21e1cde6, 0xc33707d6, 0xf4d50d87, 0x455a14ed,
   0xa9e3e905, 0xfcefa3f8, 0x676f02d9, 0x8d2a4c8a,
   0xfffa3942, 0x8771f681, 0x6d9d6122, 0xfde5380c,
   0xa4beea44, 0x4bdecfa9, 0xf6bb4b60, 0xbebfbc70,
   0x289b7ec6, 0xeaa127fa, 0xd4ef3085, 0x04881d05,
   0xd9d4d039, 0xe6db99e5, 0x1fa27cf8, 0xc4ac5665,
   0xf4292244, 0x432aff97, 0xab9423a7, 0xfc93a039,
   0x655b59c3, 0x8f0ccc92, 0xffeff47d, 0x85845dd1,
   0x6fa87e4f, 0xfe2ce6e0, 0xa3014314, 0x4e0811a1,
   0xf7537e82, 0xbd3af235, 0x2ad7d2bb, 0xeb86d391]

def md5S : List Nat :=
  [7, 12, 17, 22, 7, 12, 17, 22, 7, 12, 17, 22, 7, 12, 17, 22,
   5, 9, 14, 20, 5, 9, 14, 20, 5, 9, 14, 20, 5, 9, 14, 20,
   4, 11, 16, 23, 4, 11, 16, 23, 4, 11, 16, 23, 4, 11, 16, 23,
   6, 10, 15, 21, 6, 10, 15, 21, 6, 10, 15, 21, 6, 10, 15, 21]

def rotl32 (x n : Nat) : Nat :=
  ((x <<< n) ||| (x >>> (32 - n))) % 4294967296

def md5Step (M : List Nat) (st : Nat × Nat × Nat × Nat) (i : Nat) :
    Nat × Nat × Nat × Nat :=
  let a := st.1
  let b := st.2.1
  let c := st.2.2.1
  let d := st.2.2.2
  let f :=
    if i < 16 then (b &&& c) ||| ((b ^^^ 4294967295) &&& d)
    else if i < 32 then (d &&& b) ||| ((d ^^^ 4294967295) &&& c)
    else if i < 48 then b ^^^ c ^^^ d
    else c ^^^ (b ||| (d ^^^ 4294967295))
  let g :=
    if i < 16 then i
    else if i < 32 then (5 * i + 1) % 16
    else if i < 48 then (3 * i + 5) % 16
    else (7 * i) % 16
  let f2 := (f + a + md5K.getD i 0 + M.getD g 0) % 4294967296
  (d, (b + rotl32 f2 (md5S.getD i 0)) % 4294967296, b, c)

/-- Splits a list into chunks of k+1 elements (the final chunk may be short). -/
def chunksOf (k : Nat) : List Nat → List (List Nat)
  | [] => []
  | x :: xs => (x :: xs.take k) :: chunksOf k (xs.drop k)
termination_by l => l.length
decreasing_by
  simp only [List.length_drop, List.length_cons]
  omega

/-- Little-endian word value of a list of bytes. -/
def leWord (bs : List Nat) : Nat :=
  bs.foldr (fun b acc => b + 256 * acc) 0

/-- The four bytes of a 32-bit word, little endian. -/
def leBytes4 (n : Nat) : List Nat :=
  [n % 256, n / 256 % 256, n / 65536 % 256, n / 16777216 % 256]

/-- The eight bytes of a 64-bit word, little endian. -/
def leBytes8 (n : Nat) : List Nat :=
  [n % 256, n / 2 ^ 8 % 256, n / 2 ^ 16 % 256, n / 2 ^ 24 % 256,
   n / 2 ^ 32 % 256, n / 2 ^ 40 % 256, n / 2 ^ 48 % 256, n / 2 ^ 56 % 256]

def md5Chunk (st : Nat × Nat × Nat × Nat) (block : List Nat) :
    Nat × Nat × Nat × Nat :=
  let M := (chunksOf 3 block).map leWord
  let r := (List.range 64).foldl (md5Step M) st
  ((st.1 + r.1) % 4294967296,
   (st.2.1 + r.2.1) % 4294967296,
   (st.2.2.1 + r.2.2.1) % 4294967296,
   (st.2.2.2 + r.2.2.2) % 4294967296)

def md5Pad (msg : List Nat) : List Nat :=
  let z := (120 - (msg.length + 1) % 64) % 64
  msg ++ [128] ++ List.replicate z 0 ++ leBytes8 ((8 * msg.length) % 2 ^ 64)

/-- MD5 digest (16 bytes) of a byte list. -/
def md5sum (msg : List Nat) : List Nat :=
  let blocks := chunksOf 63 (md5Pad msg)
  let r := blocks.foldl md5Chunk (0x67452301, 0xefcdab89, 0x98badcfe, 0x10325476)
  leBytes4 r.1 ++ leBytes4 r.2.1 ++ leBytes4 r.2.2.1 ++ leBytes4 r.2.2.2

def hexDigitChar (n : Nat) : Char :=
  if n < 10 then Char.ofNat (48 + n) else Char.ofNat (87 + n)

/-- Lowercase hexadecimal rendering of a byte list (hex.EncodeToString). -/
def hexEncode (bs : List Nat) : String :=
  String.mk (bs.flatMap fun b => [hexDigitChar (b / 16 % 16), hexDigitChar (b % 16)])

/-- Lowercase hex MD5 of a byte list. -/
def hexMD5bytes (bs : List Nat) : String :=
  hexEncode (md5sum bs)

/-- Source function hexMD5: lowercase hex MD5 digest of the bytes of a string. -/
def hexMD5 (s : String) : String :=
  hexMD5bytes (utf8Bytes s)

/-! ## Go path/filepath: Clean, Join and strings.Contains (unix separators) -/

/-- Backtracking step of path.Clean for a dotdot element: the output buffer is
kept in reverse; characters are dropped one at a time, and dropping continues
while the buffer stays longer than the protected dotdot region and the char
just dropped was not a separator. -/
def cleanBacktrack (dotdot : Nat) : List Char → List Char
  | [] => []
  | c :: rest =>
    if rest.length > dotdot ∧ c ≠ '/' then cleanBacktrack dotdot rest else rest

/-- Main loop of Go path.Clean. The remaining input is consumed left to right;
out is the output buffer in reverse order; dotdot is the length of the
protected region that dotdot elements must not erase. -/
def cleanLoop (rooted : Bool) (path out : List Char) (dotdot : Nat) : List Char :=
  match path with
  | [] => out
  | c :: rest =>
    if c = '/' then
      -- empty path element
      cleanLoop rooted rest out dotdot
    else if c = '.' ∧ (rest = [] ∨ rest.head? = some '/') then
      -- "." element
      cleanLoop rooted rest out dotdot
    else if c = '.' ∧ rest.head? = some '.' ∧
            (rest.tail = [] ∨ rest.tail.head? = some '/') then
      -- ".." element
      if out.length > dotdot then
        cleanLoop rooted rest.tail (cleanBacktrack dotdot out) dotdot
      else if rooted = false then
        let out1 := if out.length > 0 then '/' :: out else out
        let out2 := '.' :: '.' :: out1
        cleanLoop rooted rest.tail out2 out2.length
      else
        cleanLoop rooted rest.tail out dotdot
    else
      -- real path element: add slash if needed, then copy the element
      let out1 :=
        if (rooted = true ∧ out.length ≠ 1) ∨ (rooted = false ∧ out.length ≠ 0)
        then '/' :: out else out
      let seg := (c :: rest).takeWhile (fun ch => ch ≠ '/')
      cleanLoop rooted ((c :: rest).dropWhile (fun ch => ch ≠ '/'))
        (seg.reverse ++ out1) dotdot
termination_by path.length
decreasing_by
  · simp
  · simp
  · simp only [List.length_cons, List.length_tail]
    omega
  · simp only [List.length_cons, List.length_tail]
    omega
  · simp only [List.length_cons, List.length_tail]
    omega
  · simp only [List.length_cons, ne_eq]
    have h3 := (@List.dropWhile_sublist Char rest
      (fun ch => decide ¬ch = '/')).length_le
    have h2 : List.dropWhile (fun ch => decide ¬ch = '/') (c :: rest) =
        List.dropWhile (fun ch => decide ¬ch = '/') rest := by
      simp only [List.dropWhile]
      simp_all
    have h4 := congrArg List.length h2
    omega

/-- Go path.Clean restricted to unix separators (filepath.Clean on unix). -/
def pathClean (path : String) : String :=
  if path = "" then "."
  else
    let cs := path.data
    let rooted := cs.head? = some '/'
    let out :=
      if rooted then cleanLoop true cs.tail ['/'] 1
      else cleanLoop false cs [] 0
    if out = [] then "." else String.mk out.reverse

/-- Go filepath.Join on two elements: empty elements are skipped, and the
slash-joined result is cleaned. -/
def filepathJoin (a b : String) : String :=
  if a = "" then (if b = "" then "" else pathClean b)
  else if b = "" then pathClean a
  else pathClean (a ++ "/" ++ b)

/-- Substring test on character lists, first-position scan. -/
def containsSeq (hay needle : List Char) : Bool :=
  match hay with
  | [] => needle.isEmpty
  | _ :: t => needle.isPrefixOf hay || containsSeq t needle

/-- Go strings.Contains (the marker searched for here is pure ASCII, so the
byte-level search coincides with this character-level one). -/
def strContains (s sub : String) : Bool :=
  containsSeq s.data sub.data

/-! ## Data model: errors, frames, configuration, connection handle -/

/-- An opaque error produced by the operating system, the transport or the
codec; the tag only serves to tell values apart. -/
structure IOErr where
  tag : String
deriving DecidableEq, Repr

/-- PgError: an error reported by the PostgreSQL server (source lines 25-43). -/
structure PgError where
  Severity : String
  Code : String
  Message : String
  Detail : String
  Hint : String
  Position : Int
  InternalPosition : Int
  InternalQuery : String
  Where : String
  SchemaName : String
  TableName : String
  ColumnName : String
  DataTypeName : String
  ConstraintName : String
  File : String
  Line : Int
  Routine : String
deriving DecidableEq, Repr

/-- The errors Connect and its helpers can return: opaque transported errors,
the distinguished ErrTLSRefused sentinel, a structured server error, and the
two errors.New protocol violations of conn.go. -/
inductive GoError where
  | ioErr (e : IOErr)
  | tlsRefused
  | pg (e : PgError)
  | unexpectedMessage
  | unknownAuthMessage
deriving DecidableEq, Repr

/-- The pgproto3.ErrorResponse frame shape used by Connect. -/
structure ErrorResponse where
  Severity : String
  Code : String
  Message : String
  Detail : String
  Hint : String
  Position : Int
  InternalPosition : Int
  InternalQuery : String
  Where : String
  SchemaName : String
  TableName : String
  ColumnName : String
  DataTypeName : String
  ConstraintName : String
  File : String
  Line : Int
  Routine : String
deriving DecidableEq, Repr

/-- The pgproto3.Authentication frame: a discriminant and a server salt.
The Go field is named Type, a reserved word here. -/
structure Authentication where
  Type' : Nat
  Salt : List Nat
deriving DecidableEq, Repr

def AuthTypeOk : Nat := 0
def AuthTypeCleartextPassword : Nat := 3
def AuthTypeMD5Password : Nat := 5

def ProtocolVersionNumber : Nat := 196608

/-- The backend message kinds Connect inspects; every other codec message is
otherMessage, carried opaquely. -/
inductive BackendMessage where
  | backendKeyData (ProcessID : Nat) (SecretKey : Nat)
  | authentication (msg : Authentication)
  | readyForQuery (TxStatus : Nat)
  | parameterStatus (Name : String) (Value : String)
  | errorResponse (msg : ErrorResponse)
  | otherMessage (tag : String)
deriving DecidableEq, Repr

/-- Frames written to the byte stream by Connect and its helpers: the 8-byte
TLS negotiation request, the startup frame, and password-response frames. -/
inductive FrontendMessage where
  | sslRequest (length : Nat) (code : Nat)
  | startup (ProtocolVersion : Nat) (Parameters : List (String × String))
  | password (Password : String)
deriving DecidableEq, Repr

/-- A dial strategy; behaviour lives in the oracle, the value only records
whether the installed function is the default keep-alive dialer. -/
inductive DialFunc where
  | defaultDialer (keepAliveSeconds : Nat)
  | custom (id : Nat)
deriving DecidableEq, Repr

/-- A TLS policy (tls.Config); contents are opaque to this layer. -/
structure TLSConf where
  policyId : Nat
deriving DecidableEq, Repr

/-- The byte stream handle: either a plain dialed stream or one wrapped by a
TLS client with some policy. -/
inductive NetConn where
  | plain (network : String) (address : String)
  | tlsClient (inner : NetConn) (config : TLSConf)
deriving DecidableEq, Repr

/-- ConnConfig (source lines 56-65). -/
structure ConnConfig where
  Host : String
  Port : Nat
  Database : String
  User : String
  Password : String
  TLSConfig : Option TLSConf
  Dial : Option DialFunc
  RuntimeParams : List (String × String)
deriving DecidableEq, Repr

/-- PgConn (source lines 104-114); the Frontend codec handle is represented by
the oracle, so it does not appear as a field. -/
structure PgConn where
  NetConn : NetConn
  PID : Nat
  SecretKey : Nat
  parameterStatuses : List (String × String)
  TxStatus : Nat
  Config : ConnConfig
deriving DecidableEq, Repr

/-- The handshake outcome: an established handle, an error (the Go pair
(nil, err)), or pending when the scripted receive list ran out while the
loop was still waiting for the server. -/
inductive Outcome where
  | ok (conn : PgConn)
  | err (e : GoError)
  | pending
deriving DecidableEq, Repr

/-- Oracle for every call Connect makes into the outside world, one field per
call site, in program order. -/
structure Env where
  stat : String → Bool
  currentUser : Except IOErr String
  dial : String → String → Option IOErr
  tlsWrite : Option IOErr
  tlsRead : Except IOErr Nat
  frontendNew : Option IOErr
  startupWrite : Option IOErr
  passwordWrites : List (Option IOErr)
  receives : List (Except IOErr BackendMessage)

/-! ## Operations (conn.go) -/

/-- ConnConfig.NetworkAddress (source lines 67-81); stat models os.Stat
succeeding on the host string. -/
def ConnConfig.NetworkAddress (stat : String → Bool) (cc : ConnConfig) :
    String × String :=
  if stat cc.Host then
    ("unix",
     if strContains cc.Host "/.s.PGSQL." then cc.Host
     else filepathJoin cc.Host ".s.PGSQL." ++ Nat.repr cc.Port)
  else ("tcp", cc.Host ++ ":" ++ Nat.repr cc.Port)

/-- ConnConfig.assignDefaults (source lines 83-102); currentUser models
user.Current().Username. The default dialer keep-alive is five minutes. -/
def ConnConfig.assignDefaults (currentUser : Except IOErr String)
    (cc : ConnConfig) : Except IOErr ConnConfig :=
  match (if cc.User = "" then currentUser.map fun u => { cc with User := u }
         else .ok cc) with
  | .error e => .error e
  | .ok cc1 =>
    let cc2 := if cc1.Port = 0 then { cc1 with Port := 5432 } else cc1
    .ok (if cc2.Dial = none then { cc2 with Dial := some (.defaultDialer 300) }
         else cc2)

/-- PgConn.startTLS (source lines 206-224). Returns the error (nil on
success), the connection as left by the call, and the frames written. The
response byte 83 is the ASCII accept sentinel S. -/
def PgConn.startTLS (c : PgConn) (tlsConfig : TLSConf) (tlsWrite : Option IOErr)
    (tlsRead : Except IOErr Nat) :
    Option GoError × PgConn × List FrontendMessage :=
  match tlsWrite with
  | some e => (some (.ioErr e), c, [.sslRequest 8 80877103])
  | none =>
    match tlsRead with
    | .error e => (some (.ioErr e), c, [.sslRequest 8 80877103])
    | .ok b =>
      if b ≠ 83 then (some .tlsRefused, c, [.sslRequest 8 80877103])
      else (none, { c with NetConn := .tlsClient c.NetConn tlsConfig },
            [.sslRequest 8 80877103])

/-- PgConn.txPasswordMessage (source lines 241-245): encode a
PasswordMessage and write it; the write outcome comes from the oracle. -/
def PgConn.txPasswordMessage (_c : PgConn) (writeRes : Option IOErr)
    (password : String) : Option IOErr × List FrontendMessage :=
  (writeRes, [.password password])

/-- PgConn.rxAuthenticationX (source lines 226-239). The Go expression
string(msg.Salt) concatenates raw salt bytes after the hex digest text, so
the inner credential is computed at byte level here. -/
def PgConn.rxAuthenticationX (c : PgConn) (msg : Authentication)
    (writeRes : Option IOErr) : Option GoError × List FrontendMessage :=
  if msg.Type' = AuthTypeOk then (none, [])
  else if msg.Type' = AuthTypeCleartextPassword then
    let r := c.txPasswordMessage writeRes c.Config.Password
    (r.1.map .ioErr, r.2)
  else if msg.Type' = AuthTypeMD5Password then
    let digestedPassword := "md5" ++ hexMD5bytes
      (utf8Bytes (hexMD5 (c.Config.Password ++ c.Config.User)) ++ msg.Salt)
    let r := c.txPasswordMessage writeRes digestedPassword
    (r.1.map .ioErr, r.2)
  else (some .unknownAuthMessage, [])

/-- PgConn.ReceiveMessage (source lines 253-267): the codec result is given
by the oracle; ready-for-query and parameter-status frames update the
derived session state before the message is handed back. -/
def PgConn.ReceiveMessage (c : PgConn)
    (recvResult : Except IOErr BackendMessage) :
    Except IOErr BackendMessage × PgConn :=
  match recvResult with
  | .error e => (.error e, c)
  | .ok msg =>
    match msg with
    | .readyForQuery ts => (.ok msg, { c with TxStatus := ts })
    | .parameterStatus n v =>
      (.ok msg, { c with parameterStatuses := mapSet c.parameterStatuses n v })
    | _ => (.ok msg, c)

/-- PgConn.ParameterStatus (source lines 269-273); a Go map read of an
absent key yields the zero value, the empty string. -/
def PgConn.ParameterStatus (c : PgConn) (key : String) : String :=
  (mapGet c.parameterStatuses key).getD ""

/-- Translation of an error-response frame into PgError (source lines
181-199). -/
def pgErrorFrom (msg : ErrorResponse) : PgError :=
  { Severity := msg.Severity
    Code := msg.Code
    Message := msg.Message
    Detail := msg.Detail
    Hint := msg.Hint
    Position := msg.Position
    InternalPosition := msg.InternalPosition
    InternalQuery := msg.InternalQuery
    Where := msg.Where
    SchemaName := msg.SchemaName
    TableName := msg.TableName
    ColumnName := msg.ColumnName
    DataTypeName := msg.DataTypeName
    ConstraintName := msg.ConstraintName
    File := msg.File
    Line := msg.Line
    Routine := msg.Routine }

/-- The parameters of the startup frame (source lines 143-156): an empty
map, the run-time defaults copied in, then user, then database when the
configured database is non-empty. -/
def startupParameters (cc : ConnConfig) : List (String × String) :=
  let p1 := cc.RuntimeParams.foldl (fun acc kv => mapSet acc kv.1 kv.2) []
  let p2 := mapSet p1 "user" cc.User
  if cc.Database ≠ "" then mapSet p2 "database" cc.Database else p2

/-- The receive loop of Connect (source lines 162-203), consuming the
scripted receive results; password write outcomes are consumed one per
frame written by the authentication dispatch. -/
def connectLoop (c : PgConn) (receives : List (Except IOErr BackendMessage))
    (pwWrites : List (Option IOErr)) : Outcome × List FrontendMessage :=
  match receives with
  | [] => (.pending, [])
  | r :: rest =>
    match c.ReceiveMessage r with
    | (.error e, _) => (.err (.ioErr e), [])
    | (.ok msg, c1) =>
      match msg with
      | .backendKeyData pid key =>
        connectLoop { c1 with PID := pid, SecretKey := key } rest pwWrites
      | .authentication am =>
        match c1.rxAuthenticationX am (pwWrites.headD none) with
        | (some e, fs) => (.err e, fs)
        | (none, fs) =>
          let r2 := connectLoop c1 rest (pwWrites.drop fs.length)
          (r2.1, fs ++ r2.2)
      | .readyForQuery _ => (.ok c1, [])
      | .parameterStatus _ _ => connectLoop c1 rest pwWrites
      | .errorResponse er => (.err (.pg (pgErrorFrom er)), [])
      | .otherMessage _ => (.err .unexpectedMessage, [])

/-- The zero PgConn right after a successful dial (source lines 122-130):
zero-valued fields, the freshly made empty parameter map, and the dialed
stream. -/
def initialConn (network address : String) (cc : ConnConfig) : PgConn :=
  { NetConn := .plain network address
    PID := 0
    SecretKey := 0
    parameterStatuses := []
    TxStatus := 0
    Config := cc }

/-- The TLS stage of Connect (source lines 132-136): run startTLS only when
a TLS policy is configured. -/
def connectTLSStage (env : Env) (cc : ConnConfig) (c : PgConn) :
    Except GoError PgConn × List FrontendMessage :=
  match cc.TLSConfig with
  | none => (.ok c, [])
  | some t =>
    match c.startTLS t env.tlsWrite env.tlsRead with
    | (some e, _, fs) => (.error e, fs)
    | (none, c2, fs) => (.ok c2, fs)

/-- Connect (source lines 116-204). -/
def Connect (env : Env) (cc0 : ConnConfig) : Outcome × List FrontendMessage :=
  match ConnConfig.assignDefaults env.currentUser cc0 with
  | .error e => (.err (.ioErr e), [])
  | .ok cc =>
    match env.dial (cc.NetworkAddress env.stat).1 (cc.NetworkAddress env.stat).2 with
    | some e => (.err (.ioErr e), [])
    | none =>
      match connectTLSStage env cc
          (initialConn (cc.NetworkAddress env.stat).1
            (cc.NetworkAddress env.stat).2 cc) with
      | (.error e, fs) => (.err e, fs)
      | (.ok c, fs) =>
        match env.frontendNew with
        | some e => (.err (.ioErr e), fs)
        | none =>
          match env.startupWrite with
          | some e =>
            (.err (.ioErr e),
             fs ++ [.startup ProtocolVersionNumber (startupParameters cc)])
          | none =>
            let r := connectLoop c env.receives env.passwordWrites
            (r.1, fs ++ [.startup ProtocolVersionNumber (startupParameters cc)]
                  ++ r.2)

/-! ## Definitions used by the claim statements -/

/-- The credential formula the spec states for salted-hash authentication:
the marker md5 followed by the lowercase hex MD5 of (the lowercase hex MD5
of password concatenated with user) concatenated with the salt bytes. -/
def md5Credential (password user : String) (salt : List Nat) : String :=
  "md5" ++ hexMD5bytes (utf8Bytes (hexMD5 (password ++ user)) ++ salt)

/-- An ordinary path element: nonempty, free of separators, and neither the
dot nor the dotdot element. -/
def goodSeg (seg : List Char) : Bool :=
  !seg.isEmpty && !seg.contains '/' && seg ≠ ['.'] && seg ≠ ['.', '.']

/-- A nonempty sequence of ordinary path elements separated by single
slashes, with no leading or trailing slash. -/
def goodBody (cs : List Char) : Bool :=
  goodSeg (cs.takeWhile fun ch => ch ≠ '/') &&
  (match h : cs.dropWhile (fun ch => ch ≠ '/') with
   | [] => true
   | _ :: rest => goodBody rest)
termination_by cs.length
decreasing_by
  have h3 := (@List.dropWhile_sublist Char cs (fun ch => decide ¬ch = '/')).length_le
  have h4 := congrArg List.length h
  simp only [ne_eq] at h3 h4
  simp only [List.length_cons] at h4
  omega

/-- A host string that is a plain slash-separated path, optionally
absolute: no empty, dot or dotdot elements and no trailing slash. -/
def plainHost (s : String) : Bool :=
  if s.data.head? = some '/' then goodBody s.data.tail else goodBody s.data

/-- The TLS stage succeeds: either no TLS policy is configured, or the
request write succeeds and the server answers the accept sentinel. -/
def TLSStageOk (env : Env) (cc : ConnConfig) : Prop :=
  cc.TLSConfig = none ∨ (env.tlsWrite = none ∧ env.tlsRead = .ok 83)

/-- All stages of Connect before the receive loop succeed, with cc2 the
defaulted configuration. -/
def ReachesLoop (env : Env) (cc cc2 : ConnConfig) : Prop :=
  ConnConfig.assignDefaults env.currentUser cc = .ok cc2 ∧
  env.dial (cc2.NetworkAddress env.stat).1 (cc2.NetworkAddress env.stat).2 = none ∧
  TLSStageOk env cc2 ∧
  env.frontendNew = none ∧
  env.startupWrite = none

/-- The connection state with which the receive loop starts when all prior
stages succeed. -/
def loopStartConn (env : Env) (cc : ConnConfig) : PgConn :=
  let c0 := initialConn (cc.NetworkAddress env.stat).1
    (cc.NetworkAddress env.stat).2 cc
  match cc.TLSConfig with
  | none => c0
  | some t => { c0 with NetConn := .tlsClient c0.NetConn t }

/-- The frames Connect writes before entering the receive loop. -/
def handshakeFrames (cc : ConnConfig) : List FrontendMessage :=
  (if cc.TLSConfig.isSome then [.sslRequest 8 80877103] else []) ++
  [.startup ProtocolVersionNumber (startupParameters cc)]

/-! ## Helper lemmas -/

theorem mapGet_mapSet (m : List (String × String)) (k v k2 : String) :
    mapGet (mapSet m k v) k2 = if k2 = k then some v else mapGet m k2 := by
  induction m with
  | nil =>
    by_cases h : k2 = k
    · subst h; simp [mapSet, mapGet]
    · simp [mapSet, mapGet, h, Ne.symm h]
  | cons p rest ih =>
    by_cases hp : p.1 = k
    · by_cases h : k2 = k
      · subst h; simp [mapSet, mapGet, hp]
      · simp [mapSet, mapGet, hp, h, Ne.symm h]
    · by_cases h : k2 = k
      · subst h; simp [mapSet, mapGet, hp, ih]
      · simp [mapSet, mapGet, hp, h, Ne.symm h, ih]

theorem mapGet_eq_none_of_not_mem (m : List (String × String)) (k : String)
    (h : k ∉ m.map Prod.fst) : mapGet m k = none := by
  induction m with
  | nil => rfl
  | cons p rest ih =>
    simp only [List.map_cons, List.mem_cons] at h
    push_neg at h
    simp only [mapGet, if_neg (fun h2 : p.1 = k => h.1 h2.symm)]
    exact ih h.2

theorem mapGet_foldl_mapSet (l : List (String × String))
    (hnd : (l.map Prod.fst).Nodup) (m : List (String × String)) (k : String) :
    mapGet (l.foldl (fun acc kv => mapSet acc kv.1 kv.2) m) k =
      match mapGet l k with
      | some v => some v
      | none => mapGet m k := by
  induction l generalizing m with
  | nil => simp [mapGet]
  | cons p rest ih =>
    simp only [List.map_cons, List.nodup_cons] at hnd
    simp only [List.foldl_cons]
    rw [ih hnd.2]
    by_cases h : p.1 = k
    · have hnm : mapGet rest k = none :=
        mapGet_eq_none_of_not_mem rest k (h ▸ hnd.1)
      simp [mapGet, hnm, h, mapGet_mapSet]
    · have hget : mapGet ((p :: rest)) k = mapGet rest k := by
        simp [mapGet, h]
      rw [hget]
      cases hr : mapGet rest k with
      | some v => rfl
      | none =>
        simp only [mapGet_mapSet]
        rw [if_neg (fun h2 : k = p.1 => h h2.symm)]

theorem dropWhile_head_false {p : Char → Bool} :
    ∀ (l : List Char) (x : Char) (xs : List Char),
    l.dropWhile p = x :: xs → p x = false := by
  intro l
  induction l with
  | nil => intro x xs h; simp [List.dropWhile] at h
  | cons a l2 ih =>
    intro x xs h
    rw [List.dropWhile_cons] at h
    by_cases ha : p a
    · rw [if_pos ha] at h
      exact ih x xs h
    · rw [if_neg ha] at h
      cases h
      simpa using ha

theorem connectLoop_ok_mem (rs : List (Except IOErr BackendMessage)) :
    ∀ (c : PgConn) (pw : List (Option IOErr)) (c2 : PgConn),
    (connectLoop c rs pw).1 = .ok c2 →
    ∃ ts, Except.ok (BackendMessage.readyForQuery ts) ∈ rs := by
  induction rs with
  | nil => intro c pw c2 h; simp [connectLoop] at h
  | cons r rest ih =>
    intro c pw c2 h
    cases r with
    | error e => simp [connectLoop, PgConn.ReceiveMessage] at h
    | ok msg =>
      cases msg with
      | backendKeyData pid key =>
        simp only [connectLoop, PgConn.ReceiveMessage] at h
        obtain ⟨ts, hts⟩ := ih _ _ _ h
        exact ⟨ts, List.mem_cons_of_mem _ hts⟩
      | authentication am =>
        simp only [connectLoop, PgConn.ReceiveMessage] at h
        rcases hx : PgConn.rxAuthenticationX c am (pw.headD none) with ⟨eo, fs⟩
        rw [hx] at h
        cases eo with
        | some e => simp at h
        | none =>
          simp only at h
          obtain ⟨ts, hts⟩ := ih _ _ _ h
          exact ⟨ts, List.mem_cons_of_mem _ hts⟩
      | readyForQuery ts =>
        exact ⟨ts, List.mem_cons_self _ _⟩
      | parameterStatus n v =>
        simp only [connectLoop, PgConn.ReceiveMessage] at h
        obtain ⟨ts, hts⟩ := ih _ _ _ h
        exact ⟨ts, List.mem_cons_of_mem _ hts⟩
      | errorResponse er => simp [connectLoop, PgConn.ReceiveMessage] at h
      | otherMessage tag => simp [connectLoop, PgConn.ReceiveMessage] at h

theorem connect_reach (env : Env) (cc cc2 : ConnConfig)
    (h : ReachesLoop env cc cc2) :
    Connect env cc =
      ((connectLoop (loopStartConn env cc2) env.receives env.passwordWrites).1,
       handshakeFrames cc2 ++
         (connectLoop (loopStartConn env cc2) env.receives env.passwordWrites).2) := by
  obtain ⟨h1, h2, h3, h4, h5⟩ := h
  cases htc : cc2.TLSConfig with
  | none =>
    simp [Connect, h1, h2, h4, h5, connectTLSStage, htc, loopStartConn,
      handshakeFrames]
  | some t =>
    rcases h3 with h3 | ⟨hw, hr⟩
    · rw [htc] at h3; exact absurd h3 (by simp)
    · simp [Connect, h1, h2, h4, h5, connectTLSStage, htc, PgConn.startTLS,
        hw, hr, loopStartConn, handshakeFrames]

theorem takeWhile_all {p : Char → Bool} :
    ∀ (m : List Char), m.all p = true →
    m.takeWhile p = m ∧ m.dropWhile p = [] := by
  intro m
  induction m with
  | nil => intro _; exact ⟨rfl, rfl⟩
  | cons a s ih =>
    intro h
    simp only [List.all_cons, Bool.and_eq_true] at h
    have ihs := ih h.2
    simp [List.takeWhile_cons, List.dropWhile_cons, h.1, ihs.1, ihs.2]

theorem takeWhile_seg {p : Char → Bool} :
    ∀ (seg : List Char), seg.all p = true →
    ∀ (x : Char), p x = false → ∀ (r : List Char),
    (seg ++ x :: r).takeWhile p = seg ∧ (seg ++ x :: r).dropWhile p = x :: r := by
  intro seg
  induction seg with
  | nil =>
    intro _ x hx r
    simp [List.takeWhile_cons, List.dropWhile_cons, hx]
  | cons a s ih =>
    intro h x hx r
    simp only [List.all_cons, Bool.and_eq_true] at h
    have ihs := ih h.2 x hx r
    simp [List.takeWhile_cons, List.dropWhile_cons, h.1, ihs.1, ihs.2]

theorem all_ne_slash :
    ∀ (seg : List Char), seg.contains '/' = false →
    seg.all (fun ch => ch ≠ '/') = true := by
  intro seg
  induction seg with
  | nil => intro _; rfl
  | cons a s ih =>
    intro h
    simp only [List.contains_cons, Bool.or_eq_false_iff] at h
    simp only [List.all_cons, Bool.and_eq_true]
    refine ⟨?_, ih h.2⟩
    simp only [ne_eq, decide_eq_true_eq]
    intro ha
    subst ha
    simp at h

theorem goodSeg_all (seg : List Char) (h : goodSeg seg = true) :
    seg.all (fun ch => ch ≠ '/') = true := by
  simp only [goodSeg, Bool.and_eq_true] at h
  have h2 := h.1.1.2
  simp only [Bool.not_eq_true'] at h2
  exact all_ne_slash seg h2

theorem goodSeg_ne_nil (seg : List Char) (h : goodSeg seg = true) :
    seg ≠ [] := by
  simp only [goodSeg, Bool.and_eq_true] at h
  have h1 := h.1.1.1
  simp only [Bool.not_eq_true'] at h1
  intro he
  subst he
  simp at h1

theorem goodBody_seg (m : List Char) (hm : goodSeg m = true) :
    goodBody m = true := by
  have hall := goodSeg_all m hm
  have ht := takeWhile_all m hall
  rw [goodBody, ht.1, ht.2]
  simp [hm]

theorem goodBody_append :
    ∀ (n : Nat) (body : List Char), body.length ≤ n → goodBody body = true →
    ∀ (m : List Char), goodSeg m = true →
    goodBody (body ++ '/' :: m) = true := by
  intro n
  induction n with
  | zero =>
    intro body hlen hb m hm
    have hb0 : body = [] := List.length_eq_zero.mp (Nat.le_zero.mp hlen)
    subst hb0
    rw [goodBody] at hb
    simp [goodSeg] at hb
  | succ n ih =>
    intro body hlen hb m hm
    rw [goodBody] at hb
    rcases Bool.and_eq_true_iff.mp hb with ⟨hseg, hrest⟩
    have hsegall := goodSeg_all _ hseg
    have hslash : (fun ch => decide (ch ≠ '/')) '/' = false := by simp
    have hsplit : body.takeWhile (fun ch => ch ≠ '/') ++
        body.dropWhile (fun ch => ch ≠ '/') = body :=
      List.takeWhile_append_dropWhile _ body
    cases hd : body.dropWhile (fun ch => ch ≠ '/') with
    | nil =>
      have hbody : body.takeWhile (fun ch => ch ≠ '/') = body := by
        rw [hd] at hsplit
        simpa using hsplit
      have hbodyall : body.all (fun ch => ch ≠ '/') = true := hbody ▸ hsegall
      have hts := takeWhile_seg body hbodyall '/' hslash m
      rw [goodBody, hts.1, hts.2]
      have hbseg : goodSeg body = true := by rw [← hbody]; exact hseg
      simp [hbseg, goodBody_seg m hm]
    | cons x rest2 =>
      have hx : x = '/' := by
        have := dropWhile_head_false body x rest2 hd
        simpa using this
      subst hx
      have hrest2 : goodBody rest2 = true := by
        rw [hd] at hrest
        exact hrest
      have hbody2 : body = body.takeWhile (fun ch => ch ≠ '/') ++ '/' :: rest2 := by
        conv_lhs => rw [← hsplit]
        rw [hd]
      have hts := takeWhile_seg (body.takeWhile (fun ch => ch ≠ '/')) hsegall '/'
        hslash (rest2 ++ '/' :: m)
      have hlen2 : rest2.length ≤ n := by
        have hc := congrArg List.length hbody2
        simp only [List.length_append, List.length_cons] at hc
        have hne := goodSeg_ne_nil _ hseg
        have hpos : 0 < (body.takeWhile (fun ch => ch ≠ '/')).length :=
          List.length_pos.mpr hne
        omega
      have hbm : body ++ '/' :: m =
          body.takeWhile (fun ch => ch ≠ '/') ++ '/' :: (rest2 ++ '/' :: m) := by
        conv_lhs => rw [hbody2]
        simp
      rw [hbm, goodBody, hts.1, hts.2]
      simp only [hseg, Bool.true_and]
      have hgb := ih rest2 hlen2 hrest2 m hm
      simp [hgb]

theorem cleanLoop_cons_regular (rooted : Bool) (c : Char) (rest out : List Char)
    (dotdot : Nat) (hc : ¬c = '/')
    (h2 : ¬(c = '.' ∧ (rest = [] ∨ rest.head? = some '/')))
    (h3 : ¬(c = '.' ∧ rest.head? = some '.' ∧
        (rest.tail = [] ∨ rest.tail.head? = some '/'))) :
    cleanLoop rooted (c :: rest) out dotdot =
      cleanLoop rooted ((c :: rest).dropWhile (fun ch => ch ≠ '/'))
        (((c :: rest).takeWhile (fun ch => ch ≠ '/')).reverse ++
          (if (rooted = true ∧ out.length ≠ 1) ∨ (rooted = false ∧ out.length ≠ 0)
           then '/' :: out else out)) dotdot := by
  conv_lhs => rw [cleanLoop]
  rw [if_neg hc, if_neg h2, if_neg h3]

theorem cleanLoop_plain :
    ∀ (n : Nat) (cs : List Char), cs.length ≤ n → goodBody cs = true →
    ∀ (rooted : Bool) (out : List Char) (dotdot : Nat),
    (rooted = true → 1 ≤ out.length) →
    cleanLoop rooted cs out dotdot =
      cs.reverse ++
        (if (rooted = true ∧ out.length ≠ 1) ∨ (rooted = false ∧ out.length ≠ 0)
         then '/' :: out else out) := by
  intro n
  induction n with
  | zero =>
    intro cs hlen hg rooted out dotdot hout
    have hcs : cs = [] := List.length_eq_zero.mp (Nat.le_zero.mp hlen)
    subst hcs
    rw [goodBody] at hg
    simp [goodSeg] at hg
  | succ n ih =>
    intro cs hlen hg rooted out dotdot hout
    cases cs with
    | nil =>
      rw [goodBody] at hg
      simp [goodSeg] at hg
    | cons c rest =>
      rw [goodBody] at hg
      rcases Bool.and_eq_true_iff.mp hg with ⟨hseg, hrest⟩
      -- the head character is not a separator
      have hc : ¬c = '/' := by
        intro hcc
        subst hcc
        rw [List.takeWhile_cons] at hseg
        simp [goodSeg] at hseg
      have hsegeq : (c :: rest).takeWhile (fun ch => ch ≠ '/') =
          c :: rest.takeWhile (fun ch => ch ≠ '/') := by
        rw [List.takeWhile_cons, if_pos (by simpa using hc)]
      -- the loop cannot see a dot element
      have h2 : ¬(c = '.' ∧ (rest = [] ∨ rest.head? = some '/')) := by
        rintro ⟨hcd, hr | hr⟩
        · subst hcd; subst hr
          rw [hsegeq] at hseg
          simp [goodSeg] at hseg
        · subst hcd
          cases rest with
          | nil => simp at hr
          | cons x rest2 =>
            simp only [List.head?_cons, Option.some.injEq] at hr
            subst hr
            rw [hsegeq, List.takeWhile_cons] at hseg
            simp [goodSeg] at hseg
      -- nor a dotdot element
      have h3 : ¬(c = '.' ∧ rest.head? = some '.' ∧
          (rest.tail = [] ∨ rest.tail.head? = some '/')) := by
        rintro ⟨hcd, hh, ht⟩
        subst hcd
        cases rest with
        | nil => simp at hh
        | cons x rest2 =>
          simp only [List.head?_cons, Option.some.injEq] at hh
          subst hh
          simp only [List.tail_cons] at ht
          rcases ht with ht | ht
          · subst ht
            rw [hsegeq, List.takeWhile_cons] at hseg
            simp [goodSeg] at hseg
          · cases rest2 with
            | nil => simp at ht
            | cons y rest3 =>
              simp only [List.head?_cons, Option.some.injEq] at ht
              subst ht
              rw [hsegeq, List.takeWhile_cons] at hseg
              rw [List.takeWhile_cons] at hseg
              simp [goodSeg] at hseg
      rw [cleanLoop_cons_regular rooted c rest out dotdot hc h2 h3]
      have hsplit : (c :: rest).takeWhile (fun ch => ch ≠ '/') ++
          (c :: rest).dropWhile (fun ch => ch ≠ '/') = c :: rest :=
        List.takeWhile_append_dropWhile _ (c :: rest)
      have hpos : 0 < ((c :: rest).takeWhile (fun ch => ch ≠ '/')).length := by
        rw [hsegeq]; simp
      cases hd : (c :: rest).dropWhile (fun ch => ch ≠ '/') with
      | nil =>
        rw [hd] at hsplit
        simp only [List.append_nil] at hsplit
        rw [cleanLoop, hsplit]
      | cons x rest2 =>
        have hx : x = '/' := by
          have := dropWhile_head_false (c :: rest) x rest2 hd
          simpa using this
        subst hx
        rw [hd] at hsplit
        have hrest2 : goodBody rest2 = true := by
          rw [hd] at hrest
          exact hrest
        have hlen2 : rest2.length ≤ n := by
          have hcl := congrArg List.length hsplit
          simp only [List.length_append, List.length_cons] at hcl ⊢
          simp only [List.length_cons] at hlen
          omega
        -- skip the separator, then run the tail through the loop
        rw [cleanLoop, if_pos rfl]
        set seg := (c :: rest).takeWhile (fun ch => ch ≠ '/') with hsegdef
        set out1 := (if (rooted = true ∧ out.length ≠ 1) ∨
            (rooted = false ∧ out.length ≠ 0) then '/' :: out else out) with hout1
        have hout1len : 1 ≤ (seg.reverse ++ out1).length := by
          simp only [List.length_append, List.length_reverse]
          omega
        rw [ih rest2 hlen2 hrest2 rooted (seg.reverse ++ out1) dotdot
          (fun _ => hout1len)]
        have hsep2 : ((rooted = true ∧ (seg.reverse ++ out1).length ≠ 1) ∨
            (rooted = false ∧ (seg.reverse ++ out1).length ≠ 0)) := by
          cases rooted with
          | false =>
            right
            refine ⟨rfl, ?_⟩
            simp only [List.length_append, List.length_reverse]
            omega
          | true =>
            left
            refine ⟨rfl, ?_⟩
            have houtlen := hout rfl
            have h1len : 1 ≤ out1.length := by
              rw [hout1]
              by_cases hcond : (true = true ∧ out.length ≠ 1) ∨
                  (true = false ∧ out.length ≠ 0)
              · rw [if_pos hcond]; simp
              · rw [if_neg hcond]; omega
            simp only [List.length_append, List.length_reverse]
            omega
        rw [if_pos hsep2]
        -- both sides are the reversed input followed by the old buffer
        conv_rhs => rw [← hsplit]
        simp



theorem filepathJoin_plain (host : String) (hp : plainHost host = true) :
    filepathJoin host ".s.PGSQL." = host ++ "/.s.PGSQL." := by
  have hmark : goodSeg (String.data ".s.PGSQL.") = true := by decide
  have hhost : ¬host = "" := by
    intro he
    rw [he] at hp
    simp [plainHost, goodBody, goodSeg] at hp
  have hqdata : (host ++ "/" ++ ".s.PGSQL.").data =
      host.data ++ '/' :: (".s.PGSQL.").data := by
    simp [String.data_append]
  have hq2 : host ++ "/" ++ ".s.PGSQL." = host ++ "/.s.PGSQL." := by
    apply String.ext
    rw [hqdata]
    simp [String.data_append]
  have hqne : ¬(host ++ "/" ++ ".s.PGSQL.") = "" := by
    intro he
    have hd := congrArg String.data he
    rw [hqdata] at hd
    simp at hd
  rw [filepathJoin, if_neg hhost, if_neg (by decide : ¬(".s.PGSQL." : String) = "")]
  rw [← hq2]
  simp only [pathClean, if_neg hqne]
  rcases hhd : host.data with _ | ⟨c, hrest⟩
  · rw [plainHost, hhd] at hp
    simp [goodBody, goodSeg] at hp
  · by_cases hcs : c = '/'
    · -- absolute host
      subst hcs
      have hpb : goodBody hrest = true := by
        rw [plainHost, hhd] at hp
        simpa using hp
      have hbody : goodBody (hrest ++ '/' :: (".s.PGSQL.").data) = true :=
        goodBody_append hrest.length hrest (Nat.le_refl _) hpb _ hmark
      have hhead : (host ++ "/" ++ ".s.PGSQL.").data.head? = some '/' := by
        rw [hqdata, hhd]
        rfl
      have htail : (host ++ "/" ++ ".s.PGSQL.").data.tail =
          hrest ++ '/' :: (".s.PGSQL.").data := by
        rw [hqdata, hhd]
        rfl
      rw [if_pos hhead, htail]
      rw [cleanLoop_plain (hrest ++ '/' :: (".s.PGSQL.").data).length _
        (Nat.le_refl _) hbody true ['/'] 1 (fun _ => by simp)]
      rw [if_neg (by simp)]
      rw [if_neg (by simp)]
      apply String.ext
      simp [hqdata, hhd]
    · -- relative host
      have hpb : goodBody (c :: hrest) = true := by
        rw [plainHost, hhd] at hp
        rw [if_neg] at hp
        · exact hp
        · simp [hcs]
      have hbody : goodBody ((c :: hrest) ++ '/' :: (".s.PGSQL.").data) = true :=
        goodBody_append (c :: hrest).length (c :: hrest) (Nat.le_refl _) hpb _ hmark
      have hhead : ¬(host ++ "/" ++ ".s.PGSQL.").data.head? = some '/' := by
        rw [hqdata, hhd]
        simp [hcs]
      have hdata2 : (host ++ "/" ++ ".s.PGSQL.").data =
          (c :: hrest) ++ '/' :: (".s.PGSQL.").data := by
        rw [hqdata, hhd]
      rw [if_neg hhead, hdata2]
      rw [cleanLoop_plain ((c :: hrest) ++ '/' :: (".s.PGSQL.").data).length _
        (Nat.le_refl _) hbody false [] 0 (fun h => by cases h)]
      rw [if_neg (by simp)]
      rw [if_neg (by simp)]
      apply String.ext
      simp [hqdata, hhd]

theorem hexDigitChar_mem :
    ∀ n, n < 16 → hexDigitChar n ∈ ("0123456789abcdef").data := by
  decide

theorem hexEncode_chars (bs : List Nat) :
    ∀ ch ∈ (hexEncode bs).data, ch ∈ ("0123456789abcdef").data := by
  intro ch hch
  simp only [hexEncode, List.mem_flatMap, List.mem_cons,
    List.not_mem_nil, or_false] at hch
  rcases hch with ⟨a, _, h | h⟩ <;>
    exact h ▸ hexDigitChar_mem _ (Nat.mod_lt _ (by omega))

theorem md5sum_length (bs : List Nat) : (md5sum bs).length = 16 := by
  simp [md5sum, leBytes4]

theorem hexEncode_length (bs : List Nat) :
    (hexEncode bs).data.length = 2 * bs.length := by
  have h : ∀ l : List Nat,
      (l.flatMap fun b => [hexDigitChar (b / 16 % 16), hexDigitChar (b % 16)]).length
        = 2 * l.length := by
    intro l
    induction l with
    | nil => rfl
    | cons b rest ih =>
      rw [List.flatMap_cons]
      simp only [List.length_append, List.length_cons, List.length_nil, ih]
      omega
  exact h bs

theorem hexMD5bytes_length (bs : List Nat) :
    (hexMD5bytes bs).data.length = 32 := by
  rw [hexMD5bytes, hexEncode_length, md5sum_length]

/-- C10: when the underlying codec receive fails, ReceiveMessage returns a nil
message together with that error, and the session transaction status and
parameter mapping are exactly as they were before the call. -/
theorem receiveMessage_error_preserves_state (c : PgConn) (e : IOErr) :
    c.ReceiveMessage (.error e) = (.error e, c) ∧
    (c.ReceiveMessage (.error e)).2.TxStatus = c.TxStatus ∧
    (c.ReceiveMessage (.error e)).2.parameterStatuses = c.parameterStatuses :=
  ⟨rfl, rfl, rfl⟩

/-- C8: every successfully decoded message is returned to the caller
unmodified; the transaction-status byte is overwritten exactly for
ready-for-query frames and the parameter map upserted exactly for
parameter-status frames, all other kinds leaving the state unchanged; a
later lookup returns the most recently reported value and the empty string
for names never reported. -/
theorem receiveMessage_tracks_session_state (c : PgConn) (msg : BackendMessage) :
    (c.ReceiveMessage (.ok msg)).1 = .ok msg ∧
    (c.ReceiveMessage (.ok msg)).2 =
      (match msg with
       | .readyForQuery ts => { c with TxStatus := ts }
       | .parameterStatus n v =>
         { c with parameterStatuses := mapSet c.parameterStatuses n v }
       | _ => c) ∧
    (∀ n v k, ((c.ReceiveMessage (.ok (.parameterStatus n v))).2).ParameterStatus k =
       if k = n then v else c.ParameterStatus k) ∧
    (∀ k, PgConn.ParameterStatus { c with parameterStatuses := [] } k = "") := by
  refine ⟨?_, ?_, ?_, ?_⟩
  · cases msg <;> rfl
  · cases msg <;> rfl
  · intro n v k
    show (mapGet (mapSet c.parameterStatuses n v) k).getD "" = _
    rw [mapGet_mapSet]
    by_cases h : k = n
    · simp [h]
    · simp [h, PgConn.ParameterStatus]
  · intro k
    rfl

/-- C7: the authentication dispatch writes exactly one password-response
frame for the cleartext discriminant (carrying the configured password
verbatim) and for the salted-hash discriminant, zero frames for the ok
discriminant, and zero frames plus the unknown-authentication error for any
other discriminant. -/
theorem rxAuthentication_frame_effects (c : PgConn) (am : Authentication)
    (wr : Option IOErr) :
    (c.rxAuthenticationX am wr).2 =
      (if am.Type' = AuthTypeCleartextPassword then
         [FrontendMessage.password c.Config.Password]
       else if am.Type' = AuthTypeMD5Password then
         [FrontendMessage.password ("md5" ++ hexMD5bytes
            (utf8Bytes (hexMD5 (c.Config.Password ++ c.Config.User)) ++ am.Salt))]
       else []) ∧
    (c.rxAuthenticationX am wr).2.length =
      (if am.Type' = AuthTypeCleartextPassword ∨ am.Type' = AuthTypeMD5Password
       then 1 else 0) ∧
    (c.rxAuthenticationX am wr).1 =
      (if am.Type' = AuthTypeOk then none
       else if am.Type' = AuthTypeCleartextPassword ∨ am.Type' = AuthTypeMD5Password
       then wr.map GoError.ioErr
       else some .unknownAuthMessage) := by
  simp only [PgConn.rxAuthenticationX, PgConn.txPasswordMessage, AuthTypeOk,
    AuthTypeCleartextPassword, AuthTypeMD5Password]
  by_cases h0 : am.Type' = 0
  · simp [h0]
  · by_cases h3 : am.Type' = 3
    · simp [h0, h3]
    · by_cases h5 : am.Type' = 5
      · simp [h0, h3, h5]
      · simp [h0, h3, h5]

/-- C6: for the salted-hash discriminant, the frame sent carries exactly the
marker md5 followed by the lowercase hex MD5 digest of (the lowercase hex
MD5 digest of password concatenated with user) concatenated with the salt
bytes; the credential is a function of (password, user, salt) alone, its
marker is three characters, and the digest text is 32 lowercase-hex
characters. -/
theorem rxAuthentication_md5_credential (c : PgConn) (salt : List Nat)
    (wr : Option IOErr) :
    (c.rxAuthenticationX ⟨AuthTypeMD5Password, salt⟩ wr).2 =
      [FrontendMessage.password
        (md5Credential c.Config.Password c.Config.User salt)] ∧
    (c.rxAuthenticationX ⟨AuthTypeMD5Password, salt⟩ wr).1 = wr.map .ioErr ∧
    (∀ password user s, (md5Credential password user s).data =
       ('m' :: 'd' :: '5' :: []) ++
         (hexMD5bytes (utf8Bytes (hexMD5 (password ++ user)) ++ s)).data) ∧
    (∀ password user s,
       ((md5Credential password user s).data.drop 3).length = 32 ∧
       ∀ ch ∈ (md5Credential password user s).data.drop 3,
         ch ∈ ("0123456789abcdef").data) := by
  refine ⟨?_, ?_, ?_, ?_⟩
  · simp [PgConn.rxAuthenticationX, PgConn.txPasswordMessage, AuthTypeOk,
      AuthTypeCleartextPassword, AuthTypeMD5Password, md5Credential]
  · simp [PgConn.rxAuthenticationX, PgConn.txPasswordMessage, AuthTypeOk,
      AuthTypeCleartextPassword, AuthTypeMD5Password]
  · intro password user s
    simp [md5Credential, String.data_append]
  · intro password user s
    have hd : (md5Credential password user s).data.drop 3 =
        (hexMD5bytes (utf8Bytes (hexMD5 (password ++ user)) ++ s)).data := by
      simp [md5Credential, String.data_append]
    rw [hd]
    exact ⟨hexMD5bytes_length _, hexEncode_chars _⟩

/-- C5: when the TLS response byte is anything other than the accept
sentinel S, startTLS returns the distinguished refusal error, which no
opaque transported error equals, and hands back the connection with its
stream not wrapped; when the byte is S the stream is replaced by a TLS
client carrying the configured policy. -/
theorem startTLS_refusal_and_wrap (c : PgConn) (t : TLSConf) (b : Nat)
    (hb : b ≠ 83) :
    c.startTLS t none (.ok b) =
      (some GoError.tlsRefused, c, [.sslRequest 8 80877103]) ∧
    (∀ e : IOErr, GoError.tlsRefused ≠ GoError.ioErr e) ∧
    c.startTLS t none (.ok 83) =
      (none, { c with NetConn := .tlsClient c.NetConn t },
       [.sslRequest 8 80877103]) := by
  refine ⟨?_, ?_, ?_⟩
  · simp [PgConn.startTLS, hb]
  · exact fun e h => GoError.noConfusion h
  · simp [PgConn.startTLS]

/-- Witness for C5 at the reject byte N (78). -/
theorem startTLS_refusal_and_wrap_witness :
    PgConn.startTLS
      ⟨.plain "tcp" "h:5432", 0, 0, [], 0,
        ⟨"h", 5432, "", "u", "pw", none, none, []⟩⟩ ⟨0⟩ none (.ok 78) =
      (some GoError.tlsRefused,
       ⟨.plain "tcp" "h:5432", 0, 0, [], 0,
         ⟨"h", 5432, "", "u", "pw", none, none, []⟩⟩,
       [.sslRequest 8 80877103]) :=
  (startTLS_refusal_and_wrap _ ⟨0⟩ 78 (by decide)).1

/-- C9: an error-response frame received in the handshake loop aborts the
handshake with a structured server error whose seventeen fields equal the
frame fields, and never yields a session handle; with such a frame at the
head of the script, Connect itself returns that error. -/
theorem errorResponse_aborts_with_pg_error (c : PgConn)
    (rest : List (Except IOErr BackendMessage)) (pw : List (Option IOErr))
    (er : ErrorResponse) (env : Env) (cc cc2 : ConnConfig)
    (hreach : ReachesLoop env cc cc2)
    (hrecv : env.receives = Except.ok (BackendMessage.errorResponse er) :: rest) :
    (connectLoop c (Except.ok (BackendMessage.errorResponse er) :: rest) pw).1 =
      .err (.pg (pgErrorFrom er)) ∧
    (∀ c2, (connectLoop c (Except.ok (BackendMessage.errorResponse er) :: rest) pw).1 ≠
      Outcome.ok c2) ∧
    (Connect env cc).1 = .err (.pg (pgErrorFrom er)) ∧
    (pgErrorFrom er).Severity = er.Severity ∧
    (pgErrorFrom er).Code = er.Code ∧
    (pgErrorFrom er).Message = er.Message ∧
    (pgErrorFrom er).Detail = er.Detail ∧
    (pgErrorFrom er).Hint = er.Hint ∧
    (pgErrorFrom er).Position = er.Position ∧
    (pgErrorFrom er).InternalPosition = er.InternalPosition ∧
    (pgErrorFrom er).InternalQuery = er.InternalQuery ∧
    (pgErrorFrom er).Where = er.Where ∧
    (pgErrorFrom er).SchemaName = er.SchemaName ∧
    (pgErrorFrom er).TableName = er.TableName ∧
    (pgErrorFrom er).ColumnName = er.ColumnName ∧
    (pgErrorFrom er).DataTypeName = er.DataTypeName ∧
    (pgErrorFrom er).ConstraintName = er.ConstraintName ∧
    (pgErrorFrom er).File = er.File ∧
    (pgErrorFrom er).Line = er.Line ∧
    (pgErrorFrom er).Routine = er.Routine := by
  refine ⟨?_, ?_, ?_, rfl, rfl, rfl, rfl, rfl, rfl, rfl, rfl, rfl, rfl, rfl,
    rfl, rfl, rfl, rfl, rfl, rfl⟩
  · simp [connectLoop, PgConn.ReceiveMessage]
  · intro c2
    simp [connectLoop, PgConn.ReceiveMessage]
  · rw [connect_reach env cc cc2 hreach, hrecv]
    simp [connectLoop, PgConn.ReceiveMessage]

/-- C1: when the receive loop is fed authentication-ok, backend-key-data and
ready-for-query in that order and every earlier stage succeeds, Connect
returns a session handle whose PID and SecretKey are the fields of the
backend-key-data frame, with no error. -/
theorem connect_success_returns_backend_key (env : Env) (cc cc2 : ConnConfig)
    (salt : List Nat) (pid key ts : Nat)
    (hreach : ReachesLoop env cc cc2)
    (hrecv : env.receives =
      [Except.ok (BackendMessage.authentication ⟨AuthTypeOk, salt⟩),
       Except.ok (BackendMessage.backendKeyData pid key),
       Except.ok (BackendMessage.readyForQuery ts)]) :
    ∃ c, (Connect env cc).1 = .ok c ∧ c.PID = pid ∧ c.SecretKey = key := by
  rw [connect_reach env cc cc2 hreach, hrecv]
  refine ⟨{ loopStartConn env cc2 with
      PID := pid, SecretKey := key, TxStatus := ts }, ?_, rfl, rfl⟩
  simp [connectLoop, PgConn.ReceiveMessage, PgConn.rxAuthenticationX, AuthTypeOk]

/-- C4: the parameters of the startup frame Connect sends are the run-time
defaults overridden by the user entry, and additionally by a database entry
exactly when the configured database is non-empty. -/
theorem connect_startup_parameters (env : Env) (cc cc2 : ConnConfig)
    (hreach : ReachesLoop env cc cc2)
    (hnd : (cc2.RuntimeParams.map Prod.fst).Nodup) :
    FrontendMessage.startup ProtocolVersionNumber (startupParameters cc2) ∈
      (Connect env cc).2 ∧
    ∀ k, mapGet (startupParameters cc2) k =
      (if k = "database" ∧ cc2.Database ≠ "" then some cc2.Database
       else if k = "user" then some cc2.User
       else mapGet cc2.RuntimeParams k) := by
  constructor
  · rw [connect_reach env cc cc2 hreach]
    simp [handshakeFrames]
  · intro k
    simp only [startupParameters]
    by_cases hdb : cc2.Database = ""
    · rw [if_neg (by simp [hdb]), if_neg (by simp [hdb])]
      rw [mapGet_mapSet, mapGet_foldl_mapSet cc2.RuntimeParams hnd]
      by_cases hu : k = "user"
      · simp [hu]
      · simp only [if_neg hu]
        cases mapGet cc2.RuntimeParams k <;> simp [mapGet]
    · rw [if_pos (by simp [hdb]), mapGet_mapSet]
      by_cases hk : k = "database"
      · simp [hk, hdb]
      · rw [if_neg hk, if_neg (by simp [hk, hdb])]
        rw [mapGet_mapSet, mapGet_foldl_mapSet cc2.RuntimeParams hnd]
        by_cases hu : k = "user"
        · simp [hu]
        · simp only [if_neg hu]
          cases mapGet cc2.RuntimeParams k <;> simp [mapGet]

/-- C2: every failure at any stage of Connect (defaulting, dial, TLS write,
TLS read, TLS refusal, codec construction, startup write, receive failure,
authentication failure, server error response, unrecognized message) yields
an error outcome and no session handle, and a session handle is produced
only when a ready-for-query frame was among the received messages. -/
theorem connect_failures_and_ready_gate (env : Env) (cc : ConnConfig) :
    (∀ e, cc.User = "" → env.currentUser = .error e →
       (Connect env cc).1 = .err (.ioErr e)) ∧
    (∀ cc2 e, ConnConfig.assignDefaults env.currentUser cc = .ok cc2 →
       env.dial (cc2.NetworkAddress env.stat).1 (cc2.NetworkAddress env.stat).2 =
         some e →
       (Connect env cc).1 = .err (.ioErr e)) ∧
    (∀ cc2 t, ConnConfig.assignDefaults env.currentUser cc = .ok cc2 →
       env.dial (cc2.NetworkAddress env.stat).1 (cc2.NetworkAddress env.stat).2 =
         none →
       cc2.TLSConfig = some t →
       ((∀ e, env.tlsWrite = some e → (Connect env cc).1 = .err (.ioErr e)) ∧
        (∀ e, env.tlsWrite = none → env.tlsRead = .error e →
           (Connect env cc).1 = .err (.ioErr e)) ∧
        (∀ b, env.tlsWrite = none → env.tlsRead = .ok b → b ≠ 83 →
           (Connect env cc).1 = .err .tlsRefused))) ∧
    (∀ cc2 e, ConnConfig.assignDefaults env.currentUser cc = .ok cc2 →
       env.dial (cc2.NetworkAddress env.stat).1 (cc2.NetworkAddress env.stat).2 =
         none →
       TLSStageOk env cc2 → env.frontendNew = some e →
       (Connect env cc).1 = .err (.ioErr e)) ∧
    (∀ cc2 e, ConnConfig.assignDefaults env.currentUser cc = .ok cc2 →
       env.dial (cc2.NetworkAddress env.stat).1 (cc2.NetworkAddress env.stat).2 =
         none →
       TLSStageOk env cc2 → env.frontendNew = none → env.startupWrite = some e →
       (Connect env cc).1 = .err (.ioErr e)) ∧
    (∀ (c : PgConn) (rest : List (Except IOErr BackendMessage))
       (pw : List (Option IOErr)),
       (∀ e, (connectLoop c (.error e :: rest) pw).1 = .err (.ioErr e)) ∧
       (∀ am e fs, c.rxAuthenticationX am (pw.headD none) = (some e, fs) →
          (connectLoop c (.ok (.authentication am) :: rest) pw).1 = .err e) ∧
       (∀ er, (connectLoop c (.ok (.errorResponse er) :: rest) pw).1 =
          .err (.pg (pgErrorFrom er))) ∧
       (∀ tag, (connectLoop c (.ok (.otherMessage tag) :: rest) pw).1 =
          .err .unexpectedMessage)) ∧
    (∀ c2, (Connect env cc).1 = .ok c2 →
       ∃ ts, Except.ok (BackendMessage.readyForQuery ts) ∈ env.receives) := by
  refine ⟨?_, ?_, ?_, ?_, ?_, ?_, ?_⟩
  · intro e hu hcu
    simp [Connect, ConnConfig.assignDefaults, hu, hcu, Except.map]
  · intro cc2 e hdef hdial
    simp [Connect, hdef, hdial]
  · intro cc2 t hdef hdial htc
    refine ⟨?_, ?_, ?_⟩
    · intro e hw
      simp [Connect, hdef, hdial, connectTLSStage, htc, PgConn.startTLS, hw]
    · intro e hw hr
      simp [Connect, hdef, hdial, connectTLSStage, htc, PgConn.startTLS, hw, hr]
    · intro b hw hr hb
      simp [Connect, hdef, hdial, connectTLSStage, htc, PgConn.startTLS, hw, hr,
        hb]
  · intro cc2 e hdef hdial htls hfe
    rcases htc : cc2.TLSConfig with _ | t
    · simp [Connect, hdef, hdial, connectTLSStage, htc, hfe]
    · rcases htls with h | ⟨hw, hr⟩
      · rw [htc] at h; exact absurd h (by simp)
      · simp [Connect, hdef, hdial, connectTLSStage, htc, PgConn.startTLS,
          hw, hr, hfe]
  · intro cc2 e hdef hdial htls hfe hsw
    rcases htc : cc2.TLSConfig with _ | t
    · simp [Connect, hdef, hdial, connectTLSStage, htc, hfe, hsw]
    · rcases htls with h | ⟨hw, hr⟩
      · rw [htc] at h; exact absurd h (by simp)
      · simp [Connect, hdef, hdial, connectTLSStage, htc, PgConn.startTLS,
          hw, hr, hfe, hsw]
  · intro c rest pw
    refine ⟨?_, ?_, ?_, ?_⟩
    · intro e
      simp [connectLoop, PgConn.ReceiveMessage]
    · intro am e fs hx
      simp only [connectLoop, PgConn.ReceiveMessage]
      rw [hx]
    · intro er
      simp [connectLoop, PgConn.ReceiveMessage]
    · intro tag
      simp [connectLoop, PgConn.ReceiveMessage]
  · intro c2 h
    rcases hdef : ConnConfig.assignDefaults env.currentUser cc with e | cc2
    · simp [Connect, hdef] at h
    · rcases hdial : env.dial (cc2.NetworkAddress env.stat).1
          (cc2.NetworkAddress env.stat).2 with _ | e
      · rcases htc : cc2.TLSConfig with _ | t
        · simp only [Connect, hdef, hdial, connectTLSStage, htc] at h
          rcases hfe : env.frontendNew with _ | e
          · rcases hsw : env.startupWrite with _ | e
            · simp only [hfe, hsw] at h
              exact connectLoop_ok_mem _ _ _ _ h
            · simp [hfe, hsw] at h
          · simp [hfe] at h
        · rcases hw : env.tlsWrite with _ | e
          · rcases hr : env.tlsRead with e | b
            · simp [Connect, hdef, hdial, connectTLSStage, htc,
                PgConn.startTLS, hw, hr] at h
            · by_cases hb : b = 83
              · subst hb
                simp only [Connect, hdef, hdial, connectTLSStage, htc,
                  PgConn.startTLS, hw, hr] at h
                rcases hfe : env.frontendNew with _ | e
                · rcases hsw : env.startupWrite with _ | e
                  · simp only [hfe, hsw] at h
                    exact connectLoop_ok_mem _ _ _ _ h
                  · simp [hfe, hsw] at h
                · simp [hfe] at h
              · simp [Connect, hdef, hdial, connectTLSStage, htc,
                  PgConn.startTLS, hw, hr, hb] at h
          · simp [Connect, hdef, hdial, connectTLSStage, htc,
              PgConn.startTLS, hw] at h
      · simp [Connect, hdef, hdial] at h

/-- C3 counterexample: for the existing path "." the produced unix address is
".s.PGSQL.1" (the join cleans the leading dot element away), not the plain
concatenation "./.s.PGSQL.1" the claim predicts. -/
theorem networkAddress_concat_counterexample :
    ConnConfig.NetworkAddress (fun _ => true)
        ⟨".", 1, "", "u", "", none, none, []⟩ ≠
      ("unix", "." ++ "/.s.PGSQL." ++ Nat.repr 1) := by
  have h : ConnConfig.NetworkAddress (fun _ => true)
      ⟨".", 1, "", "u", "", none, none, []⟩ =
      ("unix", ".s.PGSQL." ++ Nat.repr 1) := by
    simp [ConnConfig.NetworkAddress, strContains, containsSeq, filepathJoin,
      pathClean, cleanLoop, cleanBacktrack]
  rw [h]
  decide

/-- C3 amended: for an existing host path already containing the socket
marker the address is the host unchanged; otherwise it is the host joined
with the marker under path-join (path-cleaning) semantics followed by the
decimal port, which for plain slash-separated hosts (no empty, dot or
dotdot elements, no trailing slash) equals the plain concatenation
host ++ "/.s.PGSQL." ++ port; for non-existing paths the address is
host:port over tcp. -/
theorem networkAddress_address_forms (stat : String → Bool) (cc : ConnConfig) :
    (stat cc.Host = true → strContains cc.Host "/.s.PGSQL." = true →
       cc.NetworkAddress stat = ("unix", cc.Host)) ∧
    (stat cc.Host = true → strContains cc.Host "/.s.PGSQL." = false →
       cc.NetworkAddress stat =
         ("unix", filepathJoin cc.Host ".s.PGSQL." ++ Nat.repr cc.Port)) ∧
    (stat cc.Host = true → strContains cc.Host "/.s.PGSQL." = false →
       plainHost cc.Host = true →
       cc.NetworkAddress stat =
         ("unix", cc.Host ++ "/.s.PGSQL." ++ Nat.repr cc.Port)) ∧
    (stat cc.Host = false →
       cc.NetworkAddress stat = ("tcp", cc.Host ++ ":" ++ Nat.repr cc.Port)) := by
  refine ⟨?_, ?_, ?_, ?_⟩
  · intro hs hc
    simp [ConnConfig.NetworkAddress, hs, hc]
  · intro hs hc
    simp [ConnConfig.NetworkAddress, hs, hc]
  · intro hs hc hph
    simp [ConnConfig.NetworkAddress, hs, hc, filepathJoin_plain cc.Host hph]
  · intro hs
    simp [ConnConfig.NetworkAddress, hs]

/-- Witness for the amended C3 at an ordinary absolute socket directory. -/
theorem networkAddress_address_forms_witness :
    ConnConfig.NetworkAddress (fun _ => true)
        ⟨"/tmp", 5432, "", "u", "", none, none, []⟩ =
      ("unix", "/tmp" ++ "/.s.PGSQL." ++ Nat.repr 5432) := by
  have h := networkAddress_address_forms (fun _ => true)
    ⟨"/tmp", 5432, "", "u", "", none, none, []⟩
  have hph : plainHost "/tmp" = true := by
    rw [plainHost,
      if_pos (show ("/tmp" : String).data.head? = some '/' from rfl)]
    show goodBody ['t', 'm', 'p'] = true
    rw [goodBody]
    decide
  exact h.2.2.1 rfl (by decide) hph

/-- Witness for C1 on a concrete three-message script. -/
theorem connect_success_returns_backend_key_witness :
    ∃ c, (Connect
      ⟨fun _ => false, .ok "osuser", fun _ _ => none, none, .ok 83, none, none,
       [],
       [Except.ok (BackendMessage.authentication ⟨AuthTypeOk, []⟩),
        Except.ok (BackendMessage.backendKeyData 7 9),
        Except.ok (BackendMessage.readyForQuery 73)]⟩
      ⟨"h", 5432, "db", "u", "pw", none, some (.custom 0), []⟩).1 = .ok c ∧
      c.PID = 7 ∧ c.SecretKey = 9 :=
  connect_success_returns_backend_key _ _
    ⟨"h", 5432, "db", "u", "pw", none, some (.custom 0), []⟩ [] 7 9 73
    ⟨rfl, rfl, Or.inl rfl, rfl, rfl⟩ rfl

/-- Witness for C2 at a failing user lookup with an unset user. -/
theorem connect_failures_and_ready_gate_witness :
    (Connect
      ⟨fun _ => false, .error ⟨"nouser"⟩, fun _ _ => none, none, .ok 83, none,
       none, [], []⟩
      ⟨"h", 5432, "db", "", "pw", none, some (.custom 0), []⟩).1 =
      .err (.ioErr ⟨"nouser"⟩) :=
  (connect_failures_and_ready_gate _ _).1 ⟨"nouser"⟩ rfl rfl

/-- Witness for C4: the startup frame with the computed parameters is sent. -/
theorem connect_startup_parameters_witness :
    FrontendMessage.startup ProtocolVersionNumber
        (startupParameters
          ⟨"h", 5432, "db", "u", "pw", none, some (.custom 0),
           [("application_name", "x")]⟩) ∈
      (Connect
        ⟨fun _ => false, .ok "osuser", fun _ _ => none, none, .ok 83, none,
         none, [], []⟩
        ⟨"h", 5432, "db", "u", "pw", none, some (.custom 0),
         [("application_name", "x")]⟩).2 :=
  (connect_startup_parameters
    ⟨fun _ => false, .ok "osuser", fun _ _ => none, none, .ok 83, none,
     none, [], []⟩
    ⟨"h", 5432, "db", "u", "pw", none, some (.custom 0),
     [("application_name", "x")]⟩
    ⟨"h", 5432, "db", "u", "pw", none, some (.custom 0),
     [("application_name", "x")]⟩
    ⟨rfl, rfl, Or.inl rfl, rfl, rfl⟩ (by decide)).1

/-- Witness for C9 at a concrete error-response frame. -/
theorem errorResponse_aborts_with_pg_error_witness :
    (Connect
      ⟨fun _ => false, .ok "osuser", fun _ _ => none, none, .ok 83, none, none,
       [],
       [Except.ok (BackendMessage.errorResponse
         ⟨"ERROR", "28000", "auth failed", "", "", 0, 0, "", "", "", "", "",
          "", "", "auth.c", 42, "auth"⟩)]⟩
      ⟨"h", 5432, "db", "u", "pw", none, some (.custom 0), []⟩).1 =
      .err (.pg (pgErrorFrom
        ⟨"ERROR", "28000", "auth failed", "", "", 0, 0, "", "", "", "", "",
         "", "", "auth.c", 42, "auth"⟩)) :=
  (errorResponse_aborts_with_pg_error
    (initialConn "tcp" "h:5432"
      ⟨"h", 5432, "db", "u", "pw", none, some (.custom 0), []⟩) [] []
    ⟨"ERROR", "28000", "auth failed", "", "", 0, 0, "", "", "", "", "",
     "", "", "auth.c", 42, "auth"⟩
    ⟨fun _ => false, .ok "osuser", fun _ _ => none, none, .ok 83, none, none,
     [],
     [Except.ok (BackendMessage.errorResponse
       ⟨"ERROR", "28000", "auth failed", "", "", 0, 0, "", "", "", "", "",
        "", "", "auth.c", 42, "auth"⟩)]⟩
    ⟨"h", 5432, "db", "u", "pw", none, some (.custom 0), []⟩
    ⟨"h", 5432, "db", "u", "pw", none, some (.custom 0), []⟩
    ⟨rfl, rfl, Or.inl rfl, rfl, rfl⟩ rfl).2.2.1
